import Mathlib

/-!
A shallow embedding of the liblisp interpreter's cell data model and of the
subroutines referenced by the claims, translated from the repository sources
(valid.c, subr.c, print.c, private.h).  The cell header bits and payload
follow `struct cell` in private.h: every cell carries a `close` flag and a
cached `len` field next to its tagged payload.  C strings and symbol names are
modelled as lists of their (non-NUL) bytes; the C `lfloat` (double) is
modelled as a rational number, which is faithful for every fact stated here
(result-type selection, truncation to an integer, comparison with zero).
Functions from repository files that are not present in the source tree
(lisp.c, eval.c, io.c, read.c, hash.c) are modelled from the specification
and are marked as such in their doc comments.
-/

mutual

inductive celld : Type where
  | Int (i : Int)
  | Flt (q : Rat)
  | Sym (name : List Nat)
  | Str (bytes : List Nat)
  | Cons (a d : cell)
  | Subr (id : Nat)
  | Proc (id : Nat)
  | Fproc (id : Nat)
  | Port (input : Bool) (buf : List Nat)
  | Hash (tbl : List (List Nat × cell))
  | User (tag : Nat)

inductive cell : Type where
  | mk (close : Bool) (len : Nat) (d : celld)

end

def cell.close : cell → Bool
  | ⟨c, _, _⟩ => c

def cell.len : cell → Nat
  | ⟨_, n, _⟩ => n

/-- Name bytes of the canonical `nil` symbol ("nil"). -/
def nilName : List Nat := [110, 105, 108]

/-- Name bytes of the canonical `t` symbol ("t"). -/
def teeName : List Nat := [116]

/-- Name bytes of the canonical `error` symbol ("error"). -/
def errorName : List Nat := [101, 114, 114, 111, 114]

/-- The canonical `nil` cell: subr.c line 126 initialises the special cells
with all header bits other than the type clear, so `close = false` and the
cached `len` is `0`. -/
def gsym_nil : cell := ⟨false, 0, celld.Sym nilName⟩

/-- The canonical `t` cell (same initialiser as `gsym_nil`). -/
def gsym_tee : cell := ⟨false, 0, celld.Sym teeName⟩

/-- The canonical `error` cell (same initialiser as `gsym_nil`). -/
def gsym_error : cell := ⟨false, 0, celld.Sym errorName⟩

/-- mk_int: a fresh integer cell (no flags set). -/
def intCell (i : Int) : cell := ⟨false, 0, celld.Int i⟩

/-- mk_float: a fresh float cell (no flags set). -/
def fltCell (q : Rat) : cell := ⟨false, 0, celld.Flt q⟩

/-- mk_str: a fresh string cell; the cached `len` holds the byte count
(spec section 3: "cached length (list length, string byte-count, ...)"). -/
def strCell (s : List Nat) : cell := ⟨false, s.length, celld.Str s⟩

/-- intern: an interned symbol cell.  Interning (spec section 4.4) makes
symbol cells unique per name, so value equality of symbol cells models the
C pointer equality. -/
def symCell (s : List Nat) : cell := ⟨false, 0, celld.Sym s⟩

/-- mk_hash: a fresh hash cell.  The table is modelled as the list of its
(key, stored-value) entries in bin-then-chain iteration order. -/
def hashCell (tbl : List (List Nat × cell)) : cell := ⟨false, 0, celld.Hash tbl⟩

/-- mk_io: a fresh I/O port cell; `input` gives the direction, `buf` the
bytes the handle would deliver. -/
def portCell (input : Bool) (buf : List Nat) : cell := ⟨false, 0, celld.Port input buf⟩

/- Type predicates declared in liblisp.h and used throughout subr.c and
valid.c; each tests the type tag of the cell. -/

def is_sym : cell → Bool
  | ⟨_, _, celld.Sym _⟩ => true
  | _ => false

def is_int : cell → Bool
  | ⟨_, _, celld.Int _⟩ => true
  | _ => false

def is_floating : cell → Bool
  | ⟨_, _, celld.Flt _⟩ => true
  | _ => false

def is_cons : cell → Bool
  | ⟨_, _, celld.Cons _ _⟩ => true
  | _ => false

def is_str : cell → Bool
  | ⟨_, _, celld.Str _⟩ => true
  | _ => false

def is_proc : cell → Bool
  | ⟨_, _, celld.Proc _⟩ => true
  | _ => false

def is_fproc : cell → Bool
  | ⟨_, _, celld.Fproc _⟩ => true
  | _ => false

def is_subr : cell → Bool
  | ⟨_, _, celld.Subr _⟩ => true
  | _ => false

def is_hash : cell → Bool
  | ⟨_, _, celld.Hash _⟩ => true
  | _ => false

def is_userdef : cell → Bool
  | ⟨_, _, celld.User _⟩ => true
  | _ => false

def is_io_port : cell → Bool
  | ⟨_, _, celld.Port _ _⟩ => true
  | _ => false

def is_in : cell → Bool
  | ⟨_, _, celld.Port input _⟩ => input
  | _ => false

def is_out : cell → Bool
  | ⟨_, _, celld.Port input _⟩ => !input
  | _ => false

/-- is_nil: pointer equality with the canonical `nil` cell; by the interning
invariant this is value equality with `gsym_nil`. -/
def is_nil : cell → Bool
  | ⟨false, 0, celld.Sym s⟩ => s == nilName
  | _ => false

/-- equality with the canonical `t` cell (used by the 'b' validation class). -/
def is_tee : cell → Bool
  | ⟨false, 0, celld.Sym s⟩ => s == teeName
  | _ => false

def is_asciiz (x : cell) : Bool := is_sym x || is_str x

def is_arith (x : cell) : Bool := is_int x || is_floating x

/-- Modelled from the spec: `is_func` ('x', "callable") accepts a
subroutine, a procedure or an f-procedure (its definition lives in the
missing core file; the spec calls the class "callable"). -/
def is_func (x : cell) : Bool := is_subr x || is_proc x || is_fproc x

def is_closed (x : cell) : Bool := x.close

/-- intval: reads the integer payload.  On a non-integer cell the C code
would reinterpret unrelated payload bits; that is never reached behind the
type guards modelled here, and the default 0 stands for the junk value. -/
def intval : cell → Int
  | ⟨_, _, celld.Int i⟩ => i
  | _ => 0

/-- floatval: reads the float payload (same caveat as `intval`). -/
def floatval : cell → Rat
  | ⟨_, _, celld.Flt q⟩ => q
  | _ => 0

/-- strval/symval give the byte payload of a string or symbol cell; `none`
marks the undefined reinterpretation of any other payload as a pointer. -/
def strvalSafe : cell → Option (List Nat)
  | ⟨_, _, celld.Sym s⟩ => some s
  | ⟨_, _, celld.Str s⟩ => some s
  | _ => none

def symval (x : cell) : List Nat := (strvalSafe x).getD []

def portBuf : cell → List Nat
  | ⟨_, _, celld.Port _ b⟩ => b
  | _ => []

def hashTbl : cell → List (List Nat × cell)
  | ⟨_, _, celld.Hash t⟩ => t
  | _ => []

/-- car: first field of a cons cell.  For a non-cons cell the C code would
read unrelated payload bits; the canonical error cell stands for that junk
value (never reached behind the validation modelled here). -/
def car : cell → cell
  | ⟨_, _, celld.Cons a _⟩ => a
  | _ => gsym_error

/-- cdr: second field of a cons cell (same caveat as `car`). -/
def cdr : cell → cell
  | ⟨_, _, celld.Cons _ d⟩ => d
  | _ => gsym_error

/-- Modelled from the spec: the cached length the `cons` allocator (in the
missing core file) writes into a fresh cons cell, per invariant 3 of the
spec: when the tail is a proper list the field counts the cons cells
reachable by walking `cdr`; otherwise it is left unset (zero). -/
def consLen : cell → Nat
  | ⟨_, n, celld.Cons _ _⟩ => n + 1
  | x => if is_nil x then 1 else 0

/-- Modelled from the spec: the `cons` allocator; a fresh cons cell has no
flags set and carries the cached length described by `consLen`. -/
def cons (a d : cell) : cell := ⟨false, consLen d, celld.Cons a d⟩

def setLen : cell → Nat → cell
  | ⟨c, _, d⟩, n => ⟨c, n, d⟩

/-- Walk a cons chain collecting the cars until a non-cons cell, as the C
loops `for(; !is_nil(args); args = cdr(args))` do on proper lists. -/
def cellList : cell → List cell
  | ⟨_, _, celld.Cons a d⟩ => a :: cellList d
  | _ => []

/-! ## Errors

`RECOVER` in the C sources performs a longjmp escape carrying a printed
message; a failed validation with `recover` set calls `lisp_throw` the same
way (the spec classifies those escapes into error kinds: a failed validation
string is the spec's Type error, the invalid-divisor escape its Domain
error).  `ub` marks control paths on which the C code would dereference a
payload with the wrong type or read past a list end (undefined behaviour),
and `assertViolation` marks a failing C `assert`. -/

inductive Err : Type where
  | validation
  | recover (msg : String)
  | ub
  | assertViolation
deriving DecidableEq

/-! ## The argument validator (valid.c) -/

/-- The per-character argument classes of `VALIDATE_XLIST` (valid.c lines
27-49); `none` for a character that is not a format option. -/
def validate_class : Char → Option (cell → Bool)
  | 's' => some is_sym
  | 'd' => some is_int
  | 'c' => some is_cons
  | 'L' => some (fun x => is_cons x || is_nil x)
  | 'p' => some is_proc
  | 'r' => some is_subr
  | 'S' => some is_str
  | 'P' => some is_io_port
  | 'h' => some is_hash
  | 'F' => some is_fproc
  | 'f' => some is_floating
  | 'u' => some is_userdef
  | 'b' => some (fun x => is_nil x || is_tee x)
  | 'i' => some is_in
  | 'o' => some is_out
  | 'Z' => some is_asciiz
  | 'a' => some is_arith
  | 'x' => some is_func
  | 'I' => some (fun x => is_in x || is_str x)
  | 'l' => some (fun x => is_proc x || is_fproc x)
  | 'C' => some (fun x => is_asciiz x || is_int x)
  | 'A' => some (fun _ => true)
  | _ => none

inductive VOut : Type where
  | ok
  | failed
  | badfmt
deriving DecidableEq

/-- The while loop of `lisp_validate_args` (valid.c lines 113-129): `v`
carries the result of the previous class test; each iteration first fails if
the argument list is exhausted, the previous test failed, or the current
head argument has its closed flag set; a space re-arms `v` without consuming
an argument; a class character tests the head and advances; any other
character is an invalid format string. -/
def vloop : List Char → List cell → Bool → VOut
  | [], _, v => if v = true then VOut.ok else VOut.failed
  | c :: fmt, args, v =>
    match args with
    | [] => VOut.failed
    | x :: rest =>
      if v = false then VOut.failed
      else if x.close = true then VOut.failed
      else if c = ' ' then vloop fmt (x :: rest) true
      else
        match validate_class c with
        | none => VOut.badfmt
        | some p => vloop fmt rest (p x)

/-- lisp_validate_args (valid.c lines 101-138).  `cklen(args, len)` (whose
definition lives in the missing core file) compares the cached length of the
argument list with `len`; the evaluator builds argument lists as proper
lists whose cached length equals their element count, so it is modelled as a
length comparison.  On failure the diagnostic is printed and, when `recover`
is set, `lisp_throw` escapes (the spec's Type/validation error); an invalid
format character escapes regardless of `recover`. -/
def lisp_validate_args (len : Nat) (fmt : List Char) (args : List cell)
    (recover : Bool) : Except Err Bool :=
  if args.length ≠ len then
    if recover = true then Except.error Err.validation else Except.ok false
  else
    match vloop fmt args true with
    | VOut.ok => Except.ok true
    | VOut.failed =>
        if recover = true then Except.error Err.validation else Except.ok false
    | VOut.badfmt => Except.error (Err.recover "invalid validation format")

/-- The missing wrapper `lisp_validate(l, len, fmt, args, recover)` used by
subr.c simply forwards to `lisp_validate_args` with the docstring message. -/
def lisp_validate (len : Nat) (fmt : List Char) (args : List cell) :
    Except Err Bool :=
  lisp_validate_args len fmt args true

/-- Run a validated subroutine body: the escape of a failed validation
happens before the body is entered, exactly as in subr.c where the
`lisp_validate` call precedes the body. -/
def withValidation (len : Nat) (fmt : List Char) (args : List cell)
    (body : Except Err cell) : Except Err cell :=
  match lisp_validate len fmt args with
  | Except.error e => Except.error e
  | Except.ok _ => body

/-! ## Arithmetic subroutines (subr.c) -/

/-- INTPTR_MIN on the LP64 hosts the library targets. -/
def INTPTR_MIN : Int := -(2 ^ 63)

/-- The C conversion of a double to `intptr_t`: truncation toward zero. -/
def ratTrunc (q : Rat) : Int := Int.tdiv q.num q.den

/-- The numeric value used by the comparison subroutines:
`(is_floatval(x) ? floatval(x) : intval(x))` promoted to double. -/
def toNum (x : cell) : Rat :=
  if is_floating x = true then floatval x else (intval x : Rat)

/-- subr_sum (subr.c lines 258-270). -/
def subr_sum (args : List cell) : Except Err cell :=
  withValidation 2 ['a', ' ', 'a'] args
    (let x := args.headD gsym_error
     let y := (args.drop 1).headD gsym_error
     if is_int x && is_arith y then
       if is_floating y = true then
         Except.ok (intCell (ratTrunc ((intval x : Rat) + floatval y)))
       else
         Except.ok (intCell (intval x + intval y))
     else if is_floating x && is_arith y then
       if is_floating y = true then
         Except.ok (fltCell (floatval x + floatval y))
       else
         Except.ok (fltCell (floatval x + (intval y : Rat)))
     else Except.error (Err.recover "type check problem"))

/-- subr_sub (subr.c lines 272-281): the trailing branch runs whenever the
first argument is not an integer (after "a a" validation it is a float). -/
def subr_sub (args : List cell) : Except Err cell :=
  withValidation 2 ['a', ' ', 'a'] args
    (let x := args.headD gsym_error
     let y := (args.drop 1).headD gsym_error
     if is_int x && is_arith y then
       if is_floating y = true then
         Except.ok (intCell (ratTrunc ((intval x : Rat) - floatval y)))
       else
         Except.ok (intCell (intval x - intval y))
     else
       if is_floating y = true then
         Except.ok (fltCell (floatval x - floatval y))
       else
         Except.ok (fltCell (floatval x - (intval y : Rat))))

/-- subr_prod (subr.c lines 283-292). -/
def subr_prod (args : List cell) : Except Err cell :=
  withValidation 2 ['a', ' ', 'a'] args
    (let x := args.headD gsym_error
     let y := (args.drop 1).headD gsym_error
     if is_int x && is_arith y then
       if is_floating y = true then
         Except.ok (intCell (ratTrunc ((intval x : Rat) * floatval y)))
       else
         Except.ok (intCell (intval x * intval y))
     else
       if is_floating y = true then
         Except.ok (fltCell (floatval x * floatval y))
       else
         Except.ok (fltCell (floatval x * (intval y : Rat))))

/-- subr_mod (subr.c lines 294-302); C `%` on signed integers is the
truncated remainder `Int.tmod`. -/
def subr_mod (args : List cell) : Except Err cell :=
  withValidation 2 ['d', ' ', 'd'] args
    (let dividend := intval (args.headD gsym_error)
     let divisor := intval ((args.drop 1).headD gsym_error)
     if divisor = 0 ∨ (dividend = INTPTR_MIN ∧ divisor = -1) then
       Except.error (Err.recover "invalid divisor values")
     else Except.ok (intCell (Int.tmod dividend divisor)))

/-- subr_div (subr.c lines 304-324); C `/` on signed integers is the
truncated quotient `Int.tdiv`, and a float divisor for an integer dividend
is first truncated to `intptr_t`. -/
def subr_div (args : List cell) : Except Err cell :=
  withValidation 2 ['a', ' ', 'a'] args
    (let x := args.headD gsym_error
     let y := (args.drop 1).headD gsym_error
     if is_int x = true then
       let dividend := intval x
       let divisor : Int :=
         if is_floating y = true then ratTrunc (floatval y) else intval y
       if divisor = 0 ∨ (dividend = INTPTR_MIN ∧ divisor = -1) then
         Except.error (Err.recover "invalid divisor values")
       else Except.ok (intCell (Int.tdiv dividend divisor))
     else
       let dividend := floatval x
       let divisor : Rat :=
         if is_floating y = true then floatval y else (intval y : Rat)
       if divisor = 0 then
         Except.error (Err.recover "division by zero in %S")
       else Except.ok (fltCell (dividend / divisor)))

/-! ## Comparison subroutines (subr.c) -/

/-- C `strcmp` on NUL-terminated byte strings: the sign of the first
differing byte pair (a missing byte, the terminator, compares below every
string byte). -/
def strcmpOrd : List Nat → List Nat → Ordering
  | [], [] => Ordering.eq
  | [], _ :: _ => Ordering.lt
  | _ :: _, [] => Ordering.gt
  | a :: as, b :: bs =>
    if a < b then Ordering.lt
    else if b < a then Ordering.gt
    else strcmpOrd as bs

/-- subr_greater (subr.c lines 326-339).  The source's second branch tests
`is_asciiz(x) && is_asciiz(x)` - the first argument twice - so it is entered
whenever the first argument is a symbol or string, and `strcmp` then reads
the second argument's payload as a pointer even when that argument is not a
symbol or string (undefined behaviour, marked `Err.ub`). -/
def subr_greater (args : List cell) : Except Err cell :=
  if args.length ≠ 2 then
    Except.error (Err.recover "expected (number number) or (string string)")
  else
    let x := args.headD gsym_error
    let y := (args.drop 1).headD gsym_error
    if is_arith x && is_arith y then
      Except.ok (if toNum y < toNum x then gsym_tee else gsym_nil)
    else if is_asciiz x && is_asciiz x then
      match strvalSafe x, strvalSafe y with
      | some a, some b =>
          Except.ok (if strcmpOrd a b = Ordering.gt then gsym_tee else gsym_nil)
      | _, _ => Except.error Err.ub
    else
      Except.error (Err.recover "expected (number number) or (string string)")

/-- subr_less (subr.c lines 341-354), with the same duplicated
`is_asciiz(x)` test as `subr_greater`. -/
def subr_less (args : List cell) : Except Err cell :=
  if args.length ≠ 2 then
    Except.error (Err.recover "expected (number number) or (string string)")
  else
    let x := args.headD gsym_error
    let y := (args.drop 1).headD gsym_error
    if is_arith x && is_arith y then
      Except.ok (if toNum x < toNum y then gsym_tee else gsym_nil)
    else if is_asciiz x && is_asciiz x then
      match strvalSafe x, strvalSafe y with
      | some a, some b =>
          Except.ok (if strcmpOrd a b = Ordering.lt then gsym_tee else gsym_nil)
      | _, _ => Except.error Err.ub
    else
      Except.error (Err.recover "expected (number number) or (string string)")

/-! ## List subroutines (subr.c) -/

/-- subr_cons (subr.c lines 373-376). -/
def subr_cons (args : List cell) : Except Err cell :=
  withValidation 2 ['A', ' ', 'A'] args
    (Except.ok (cons (args.headD gsym_error) ((args.drop 1).headD gsym_error)))

/-- subr_car (subr.c lines 378-381): validate "c", return CAAR(args). -/
def subr_car (args : List cell) : Except Err cell :=
  withValidation 1 ['c'] args (Except.ok (car (args.headD gsym_error)))

/-- subr_cdr (subr.c lines 383-386): validate "c", return CDAR(args). -/
def subr_cdr (args : List cell) : Except Err cell :=
  withValidation 1 ['c'] args (Except.ok (cdr (args.headD gsym_error)))

/-- The cons chain subr_list builds: every link is created as
`cons(element, nil)` (cached length 1) and then extended in place with
`set_cdr`, which does not touch the cached length. -/
def listChain : cell → List cell → cell
  | x, [] => ⟨false, 1, celld.Cons x gsym_nil⟩
  | x, y :: rest => ⟨false, 1, celld.Cons x (listChain y rest)⟩

/-- subr_list (subr.c lines 388-400): no validation string; zero arguments
give `nil`; otherwise the head cell's cached length is set to the counter
`i`, which ends at the number of arguments. -/
def subr_list (args : List cell) : cell :=
  match args with
  | [] => gsym_nil
  | x :: rest => setLen (listChain x rest) (rest.length + 1)

/-- subr_length (subr.c lines 466-469): validate "A", return the cached
length field of the argument. -/
def subr_length (args : List cell) : Except Err cell :=
  withValidation 1 ['A'] args
    (Except.ok (intCell ((args.headD gsym_error).len)))

/-! ## I/O subroutines (subr.c) -/

/-- Modelled from the spec (section 4.1): io_getc (io.c is not in the source
tree) reads one byte from the handle, returning EOF (-1) when exhausted.
Only the returned value matters to the facts stated here. -/
def io_getc_val : List Nat → Int
  | [] => -1
  | b :: _ => (b : Int)

/-- subr_getchar (subr.c lines 496-502): no validation string; one input
argument is accepted by `is_in` alone, so the handle of the argument is
dereferenced without consulting its closed flag. -/
def subr_getchar (ifp : List Nat) (args : List cell) : Except Err cell :=
  if args.length = 0 then Except.ok (intCell (io_getc_val ifp))
  else if args.length = 1 && is_in (args.headD gsym_error) then
    Except.ok (intCell (io_getc_val (portBuf (args.headD gsym_error))))
  else Except.error (Err.recover "expected () or (input)")

/-- subr_close (subr.c lines 811-818): validate "P", set the argument's
close flag, release the handle, return the argument. -/
def subr_close (args : List cell) : Except Err cell :=
  withValidation 1 ['P'] args
    (match args.headD gsym_error with
     | ⟨_, n, d⟩ => Except.ok (⟨true, n, d⟩ : cell))

/-! ## Hash subroutines and the hash/list coercions (subr.c) -/

/-- Modelled from the spec (section 4.7): hash_insert (hash.c is not in the
source tree) stores the value under the key, replacing the value of an
existing entry and appending a new entry otherwise. -/
def hash_insert (tbl : List (List Nat × cell)) (k : List Nat) (v : cell) :
    List (List Nat × cell) :=
  if tbl.any (fun e => e.1 = k) then
    tbl.map (fun e => if e.1 = k then (k, v) else e)
  else tbl ++ [(k, v)]

/-- The insertion loop of subr_hcreate (subr.c lines 656-659): pairs of
arguments are consumed two at a time; a non-asciiz key returns the canonical
error cell (without escaping); a trailing odd element would make `CADR`
and `cdr(cdr(args))` read past the end of the list (undefined behaviour). -/
def hcreate_loop (tbl : List (List Nat × cell)) : List cell → Except Err cell
  | [] => Except.ok (hashCell tbl)
  | [k] =>
      if is_asciiz k = false then Except.ok gsym_error
      else Except.error Err.ub
  | k :: v :: rest =>
      if is_asciiz k = false then Except.ok gsym_error
      else hcreate_loop (hash_insert tbl (symval k) (cons k v)) rest

/-- subr_hcreate (subr.c lines 651-661): the parity check reads the cached
length field of the argument list (`args->len`), which is passed here
separately because the coercion path hands subr_hcreate a user-visible list
whose cached length need not match its element count. -/
def subr_hcreate (cachedLen : Nat) (elems : List cell) : Except Err cell :=
  if cachedLen % 2 = 1 then
    Except.error (Err.recover "expected even number of arguments")
  else hcreate_loop [] elems

/-- The chain built by the hash branch of subr_coerce (subr.c lines
695-704): for every entry, a fresh string cell holding the key followed by
the stored value `cur->val`; every link is created as `cons(cell, nil)`
(cached length 1) and extended in place with `set_cdr`. -/
def hash_entries_chain : List (List Nat × cell) → cell
  | [] => gsym_nil
  | (k, v) :: rest =>
      ⟨false, 1, celld.Cons (strCell k)
        ⟨false, 1, celld.Cons v (hash_entries_chain rest)⟩⟩

/-- The hash case of the CONS branch of subr_coerce (subr.c lines 692-707):
the cached length of the returned head is set to the entry counter `j`,
which counts entries, not emitted elements. -/
def coerce_hash_to_list (tbl : List (List Nat × cell)) : cell :=
  match tbl with
  | [] => gsym_nil
  | _ => setLen (hash_entries_chain tbl) tbl.length

/-- The HASH branch of subr_coerce (subr.c lines 728-730): a cons argument
is handed to subr_hcreate as its argument list, so the parity check sees the
list's cached length field; any other argument reaches the shared failure
escape (subr.c line 742). -/
def coerce_list_to_hash (conv : cell) : Except Err cell :=
  if is_cons conv = true then subr_hcreate conv.len (cellList conv)
  else Except.error (Err.recover "invalid conversion or argument length not 2")

/-! ## subr_substring (subr.c lines 942-976) -/

/-- subr_substring.  The two-argument path with a non-negative index clamps
the index with `MIN` and then asserts that the clamped index is *strictly*
below the string's cached length (subr.c line 953); `Err.assertViolation`
marks the inputs on which that `assert` fires.  The remaining paths copy the
selected bytes. -/
def subr_substring (args : List cell) : Except Err cell :=
  if ¬(args.length = 2 ∨ args.length = 3)
      ∨ is_asciiz (args.headD gsym_error) = false
      ∨ is_int ((args.drop 1).headD gsym_error) = false then
    Except.error (Err.recover "expected (string int int?)")
  else if args.length = 3 ∧ is_int ((args.drop 2).headD gsym_error) = false then
    Except.error (Err.recover "expected (string int int?)")
  else
    let sc := args.headD gsym_error
    let bytes := (strvalSafe sc).getD []
    let slen : Int := (sc.len : Int)
    let left := intval ((args.drop 1).headD gsym_error)
    if args.length = 2 then
      if 0 ≤ left then
        let left2 := min left slen
        if ¬(left2 < slen) then Except.error Err.assertViolation
        else Except.ok (strCell (bytes.drop left2.toNat))
      else
        let left2 := max 0 (slen + left)
        Except.ok (strCell (bytes.drop left2.toNat))
    else
      let right := intval ((args.drop 2).headD gsym_error)
      if right < 0 ∨ left < 0 then
        Except.error
          (Err.recover "substring lengths must positive for three arguments")
      else
        let left2 := min left slen
        let right2 := if slen ≤ left2 + right then slen - left2 else right
        Except.ok (strCell ((bytes.drop left2.toNat).take right2.toNat))

/-! ## print_escaped_string (print.c lines 19-42)

The printer is modelled with colour off, under which the `%r`/`%m` colour
directives of `lisp_printf` write nothing (print.c line 104 guards them with
`o->color`). -/

/-- C `isprint` in the default locale for the byte values a `char` can
carry: the printable ASCII range 0x20..0x7E (bytes at 0x80 and above appear
as negative `char` values, for which `isprint` reports false). -/
def isPrintB (b : Nat) : Bool := 32 ≤ b && b ≤ 126

/-- The three-octal-digit escape payload `sprintf(num+1, "%03o", c & 0xFF)`:
always exactly three digits for a byte value. -/
def oct3 (b : Nat) : List Nat := [48 + b / 64, 48 + b / 8 % 8, 48 + b % 8]

/-- The body of the `while` loop of print_escaped_string: the bytes written
for one input byte. -/
def escByte (b : Nat) : List Nat :=
  if b = 92 then [92, 92]
  else if b = 10 then [92, 110]
  else if b = 9 then [92, 116]
  else if b = 13 then [92, 114]
  else if b = 34 then [92, 34]
  else if isPrintB b = false then 92 :: oct3 b
  else [b]

/-- print_escaped_string (print.c lines 19-42), colour off: an opening
double quote, the escaped bytes, a closing double quote. -/
def print_escaped_string (s : List Nat) : List Nat :=
  34 :: s.flatMap escByte ++ [34]

/-! ## The reader's string-literal rules (modelled from the spec)

read.c is not in the source tree; the reader's escape rules are modelled
from the spec (section 4.2): inside a `"..."` literal the escapes
`\\ \" \n \t \r` and `\ooo` (exactly three octal digits) for any byte are
recognised, any other byte stands for itself, and an unterminated literal is
a syntax error (`none`). -/

def isOctDigit (b : Nat) : Bool := 48 ≤ b && b ≤ 55

def addHead (b : Nat) (r : Option (List Nat × List Nat)) :
    Option (List Nat × List Nat) :=
  r.map (fun pr => (b :: pr.1, pr.2))

/-- Modelled from the spec: the reader's scan of a string-literal body after
the opening quote; returns the decoded bytes and the rest of the input after
the closing quote. -/
def parseBody : List Nat → Option (List Nat × List Nat)
  | [] => none
  | b :: rest =>
    if b = 34 then some ([], rest)
    else if b = 92 then
      match rest with
      | [] => none
      | e :: rest2 =>
        if e = 92 || e = 34 then addHead e (parseBody rest2)
        else if e = 110 then addHead 10 (parseBody rest2)
        else if e = 116 then addHead 9 (parseBody rest2)
        else if e = 114 then addHead 13 (parseBody rest2)
        else
          match rest2 with
          | d2 :: d3 :: rest3 =>
            if isOctDigit e && isOctDigit d2 && isOctDigit d3 then
              addHead ((e - 48) * 64 + (d2 - 48) * 8 + (d3 - 48))
                (parseBody rest3)
            else none
          | _ => none
    else addHead b (parseBody rest)

/-- Modelled from the spec: reading a string literal demands an opening
double quote and scans the body. -/
def readStringLit : List Nat → Option (List Nat × List Nat)
  | 34 :: rest => parseBody rest
  | _ => none

/-! ## Format strings built from tokens

The validation strings installed by subr.c consist of single-character
classes separated by single spaces; `fmtOfTokens` rebuilds such a string
from its token list. -/

def fmtOfTokens : List Char → List Char
  | [] => []
  | [c] => [c]
  | c :: cs => c :: ' ' :: fmtOfTokens cs

/-- Whether the cell satisfies the class named by the token character. -/
def tokenOk (c : Char) (x : cell) : Bool :=
  match validate_class c with
  | some p => p x
  | none => false

/-! # Theorems -/

theorem ratTrunc_intCast_add (a b : Int) :
    ratTrunc ((a : Rat) + (b : Rat)) = a + b := by
  rw [← Int.cast_add]; unfold ratTrunc
  rw [Rat.intCast_num, Rat.intCast_den]
  simp [Int.tdiv_one]

theorem ratTrunc_intCast_sub (a b : Int) :
    ratTrunc ((a : Rat) - (b : Rat)) = a - b := by
  rw [← Int.cast_sub]; unfold ratTrunc
  rw [Rat.intCast_num, Rat.intCast_den]
  simp [Int.tdiv_one]

theorem ratTrunc_intCast_mul (a b : Int) :
    ratTrunc ((a : Rat) * (b : Rat)) = a * b := by
  rw [← Int.cast_mul]; unfold ratTrunc
  rw [Rat.intCast_num, Rat.intCast_den]
  simp [Int.tdiv_one]

/-- C2: for the division subroutine '/' and the modulo subroutine '%' on two
integer arguments, the Domain error (the RECOVER escape labelled "invalid
divisor values") is raised exactly when the divisor is zero or the dividend
is INTPTR_MIN with divisor -1; otherwise '/' returns the truncated integer
quotient and '%' the truncated remainder; in particular (/ 1 0) raises the
error (an escape to the recovery point, not a process halt). -/
theorem C2_div_mod_domain (a b : Int) :
    (subr_div [intCell a, intCell b] =
      if b = 0 ∨ (a = INTPTR_MIN ∧ b = -1) then
        Except.error (Err.recover "invalid divisor values")
      else Except.ok (intCell (Int.tdiv a b))) ∧
    (subr_mod [intCell a, intCell b] =
      if b = 0 ∨ (a = INTPTR_MIN ∧ b = -1) then
        Except.error (Err.recover "invalid divisor values")
      else Except.ok (intCell (Int.tmod a b))) ∧
    subr_div [intCell 1, intCell 0] =
      Except.error (Err.recover "invalid divisor values") :=
  ⟨rfl, rfl, rfl⟩

/-- C3: applying the car subroutine to a cell allocated by cons(a, b)
returns a, the cdr subroutine returns b; on any non-cons argument - in
particular the nil cell - both raise the validation (Type) error. -/
theorem C3_car_cdr_cons (a b x : cell) :
    subr_car [cons a b] = Except.ok a ∧
    subr_cdr [cons a b] = Except.ok b ∧
    (is_cons x = false →
      subr_car [x] = Except.error Err.validation ∧
      subr_cdr [x] = Except.error Err.validation) ∧
    subr_car [gsym_nil] = Except.error Err.validation := by
  refine ⟨rfl, rfl, ?_, rfl⟩
  intro h
  by_cases hc : x.close = true
  · constructor <;>
      simp [subr_car, subr_cdr, withValidation, lisp_validate,
        lisp_validate_args, vloop, hc]
  · simp only [Bool.not_eq_true] at hc
    constructor <;>
      simp [subr_car, subr_cdr, withValidation, lisp_validate,
        lisp_validate_args, vloop, validate_class, hc, h]

/-- C3 witness: the theorem applied at cons(1, 2) and the non-cons cell 3. -/
theorem C3_car_cdr_cons_witness :
    subr_car [cons (intCell 1) (intCell 2)] = Except.ok (intCell 1) ∧
    subr_car [intCell 3] = Except.error Err.validation := by
  have h := C3_car_cdr_cons (intCell 1) (intCell 2) (intCell 3)
  exact ⟨h.1, (h.2.2.1 (by decide)).1⟩

/-- C4: the close subroutine sets the closed flag of a port; a closed port
is refused by validation-string checking ('P'), but subr_getchar carries no
validation string and dereferences the closed port's handle anyway,
returning the byte 65 read through it instead of refusing the cell. -/
theorem C4_closed_port_dereferenced :
    subr_close [portCell true [65]] =
      Except.ok (⟨true, 0, celld.Port true [65]⟩ : cell) ∧
    lisp_validate_args 1 ['P'] [(⟨true, 0, celld.Port true [65]⟩ : cell)]
      true = Except.error Err.validation ∧
    subr_getchar [] [(⟨true, 0, celld.Port true [65]⟩ : cell)] =
      Except.ok (intCell 65) :=
  ⟨rfl, rfl, rfl⟩

/-- C5: on the argument pair ("a", 1) - a string first, a non-string second -
subr_greater and subr_less do not raise the Type error their own message
("expected (number number) or (string string)") announces: because the
asciiz branch tests the first argument twice, they reach strcmp with the
integer's payload as a char pointer (undefined behaviour). -/
theorem C5_comparison_string_integer :
    subr_greater [strCell [97], intCell 1] = Except.error Err.ub ∧
    subr_less [strCell [97], intCell 1] = Except.error Err.ub ∧
    subr_greater [strCell [97], intCell 1] ≠
      Except.error (Err.recover "expected (number number) or (string string)") := by
  refine ⟨rfl, rfl, ?_⟩
  rw [show subr_greater [strCell [97], intCell 1] = Except.error Err.ub from rfl]
  simp

/-- C6: the length subroutine applied to the result of the list subroutine
returns the number of arguments: subr_list stores that count in the head
cell's cached length field (and returns nil, whose cached length is 0, for
no arguments), and subr_length returns the cached length field. -/
theorem C6_length_of_list (args : List cell) :
    subr_length [subr_list args] = Except.ok (intCell (args.length)) := by
  cases args with
  | nil => rfl
  | cons x rest => cases rest <;> rfl

/-- C10 counterexample: with the two arguments ("a", 1) - a string of length
one and the non-negative index 1 - the clamped index equals the length, so
the assertion `left < car(args)->len` at subr.c line 953 is violated. -/
theorem C10_substring_counterexample :
    subr_substring [strCell [97], intCell 1] =
      Except.error Err.assertViolation := rfl

/-- C10 amended: for a two-argument call on a string s and a non-negative
index i, the assertion at subr.c line 953 holds exactly when i is strictly
below the length of s; for every i at or above the length (including index 0
into the empty string) the assertion fires. -/
theorem C10_substring_assert_amended (s : List Nat) (i : Int) (h : 0 ≤ i) :
    (subr_substring [strCell s, intCell i] = Except.error Err.assertViolation ↔
      (s.length : Int) ≤ i) ∧
    (i < (s.length : Int) →
      subr_substring [strCell s, intCell i] = Except.ok (strCell (s.drop i.toNat))) := by
  have hred : subr_substring [strCell s, intCell i] =
      (if ¬(min i (s.length : Int) < (s.length : Int)) then
        Except.error Err.assertViolation
       else Except.ok (strCell (s.drop (min i (s.length : Int)).toNat))) := by
    simp [subr_substring, is_asciiz, is_sym, is_str, is_int, strvalSafe,
      intval, cell.len, strCell, intCell, h]
  rw [hred]
  constructor
  · split_ifs with h2
    · exact iff_of_false (by simp) (by omega)
    · exact iff_of_true rfl (by omega)
  · intro hlt
    have hmin : min i (s.length : Int) = i := by omega
    rw [hmin]
    simp [hlt]

/-- C10 witness: the amended theorem applied to the string "ab" with
index 3 (assertion fires) and with index 1 (in-range call succeeds). -/
theorem C10_substring_witness :
    subr_substring [strCell [97, 98], intCell 3] =
      Except.error Err.assertViolation ∧
    subr_substring [strCell [97, 98], intCell 1] =
      Except.ok (strCell [98]) := by
  constructor
  · exact (C10_substring_assert_amended [97, 98] 3 (by decide)).1.mpr (by decide)
  · exact (C10_substring_assert_amended [97, 98] 1 (by decide)).2 (by decide)

theorem setLen_len (c : cell) (n : Nat) : (setLen c n).len = n := by
  cases c with
  | mk cl ln d => rfl

theorem cellList_setLen (c : cell) (n : Nat) :
    cellList (setLen c n) = cellList c := by
  cases c with
  | mk cl ln d => cases d <;> rfl

theorem cellList_hash_entries_chain (tbl : List (List Nat × cell)) :
    cellList (hash_entries_chain tbl) =
      tbl.flatMap (fun e => [strCell e.1, e.2]) := by
  induction tbl with
  | nil => rfl
  | cons e rest ih =>
    cases e with
    | mk k v => simp [hash_entries_chain, cellList, ih]

/-- C7 counterexample: coercing the one-entry hash that (hash-insert h "k" 7)
would produce does not put the value 7 after the key string "k": it puts the
stored ("k" . 7) cons pair there, and coercing that list back to a hash
raises the even-argument error (the list's cached length is the entry count
1), so the round trip fails instead of reproducing the associations. -/
theorem C7_coerce_counterexample :
    coerce_hash_to_list [([107], cons (strCell [107]) (intCell 7))] =
      (⟨false, 1, celld.Cons (strCell [107])
        (⟨false, 1, celld.Cons (cons (strCell [107]) (intCell 7)) gsym_nil⟩ : cell)⟩ : cell) ∧
    cons (strCell [107]) (intCell 7) ≠ intCell 7 ∧
    coerce_list_to_hash
        (coerce_hash_to_list [([107], cons (strCell [107]) (intCell 7))]) =
      Except.error (Err.recover "expected even number of arguments") := by
  refine ⟨rfl, ?_, rfl⟩
  intro hbad
  simp [cons, intCell] at hbad

/-- C7 amended: coercing a hash to a list produces the flat alternating list
in which every key appears as a string immediately followed by the *stored
(key . value) cons pair* (not the bare value), with the head's cached length
set to the number of entries (not elements); hash-create raises the
even-argument error whenever the cached argument count is odd, so the
hash-to-list-to-hash round trip raises that error for every hash with an odd
number of entries. -/
theorem C7_coerce_amended (tbl : List (List Nat × cell)) :
    cellList (coerce_hash_to_list tbl) =
      tbl.flatMap (fun e => [strCell e.1, e.2]) ∧
    (coerce_hash_to_list tbl).len = tbl.length ∧
    (tbl.length % 2 = 1 →
      coerce_list_to_hash (coerce_hash_to_list tbl) =
        Except.error (Err.recover "expected even number of arguments")) ∧
    (∀ (n : Nat) (elems : List cell), n % 2 = 1 →
      subr_hcreate n elems =
        Except.error (Err.recover "expected even number of arguments")) := by
  have hcreate : ∀ (n : Nat) (elems : List cell), n % 2 = 1 →
      subr_hcreate n elems =
        Except.error (Err.recover "expected even number of arguments") := by
    intro n elems hn
    simp [subr_hcreate, hn]
  refine ⟨?_, ?_, ?_, hcreate⟩
  · cases tbl with
    | nil => rfl
    | cons e rest =>
      rw [show coerce_hash_to_list (e :: rest) =
            setLen (hash_entries_chain (e :: rest)) (e :: rest).length from rfl]
      rw [cellList_setLen, cellList_hash_entries_chain]
  · cases tbl with
    | nil => rfl
    | cons e rest =>
      rw [show coerce_hash_to_list (e :: rest) =
            setLen (hash_entries_chain (e :: rest)) (e :: rest).length from rfl]
      exact setLen_len _ _
  · intro hodd
    cases tbl with
    | nil => simp at hodd
    | cons e rest =>
      cases e with
      | mk k v =>
        have hc : is_cons (coerce_hash_to_list ((k, v) :: rest)) = true := by
          simp [coerce_hash_to_list, hash_entries_chain, setLen, is_cons]
        have hl : (coerce_hash_to_list ((k, v) :: rest)).len =
            ((k, v) :: rest).length := by
          rw [show coerce_hash_to_list ((k, v) :: rest) =
                setLen (hash_entries_chain ((k, v) :: rest))
                  ((k, v) :: rest).length from rfl]
          exact setLen_len _ _
        rw [coerce_list_to_hash, if_pos hc, hl]
        exact hcreate _ _ hodd

/-- C7 witness: the amended theorem applied to a one-entry table. -/
theorem C7_coerce_amended_witness :
    coerce_list_to_hash (coerce_hash_to_list [([107], intCell 5)]) =
      Except.error (Err.recover "expected even number of arguments") :=
  (C7_coerce_amended [([107], intCell 5)]).2.2.1 (by decide)

theorem int_not_floating (x : cell) (h : is_int x = true) :
    is_floating x = false := by
  cases x with
  | mk c n d => cases d <;> simp_all [is_int, is_floating]

theorem floating_not_int (x : cell) (h : is_floating x = true) :
    is_int x = false := by
  cases x with
  | mk c n d => cases d <;> simp_all [is_int, is_floating]

theorem arith_int_or_floating (x : cell) (h : is_arith x = true) :
    is_int x = true ∨ is_floating x = true := by
  cases x with
  | mk c n d => cases d <;> simp_all [is_arith, is_int, is_floating]

/-- C9: for '+', '-' and '*' on two validated arithmetic arguments, the
result is an integer cell whenever the first argument is an integer - even
with a float second argument, in which case the mixed double result is
truncated toward zero - and a float cell exactly when the first argument is
a float. -/
theorem C9_mixed_arith (x y : cell)
    (hx : is_arith x = true) (hy : is_arith y = true)
    (hcx : x.close = false) (hcy : y.close = false) :
    (is_int x = true →
      subr_sum [x, y] = Except.ok (intCell (ratTrunc (toNum x + toNum y))) ∧
      subr_sub [x, y] = Except.ok (intCell (ratTrunc (toNum x - toNum y))) ∧
      subr_prod [x, y] = Except.ok (intCell (ratTrunc (toNum x * toNum y)))) ∧
    (is_floating x = true →
      subr_sum [x, y] = Except.ok (fltCell (toNum x + toNum y)) ∧
      subr_sub [x, y] = Except.ok (fltCell (toNum x - toNum y)) ∧
      subr_prod [x, y] = Except.ok (fltCell (toNum x * toNum y))) ∧
    (∀ r : cell,
      (subr_sum [x, y] = Except.ok r ∨ subr_sub [x, y] = Except.ok r ∨
        subr_prod [x, y] = Except.ok r) →
      (is_floating r = true ↔ is_floating x = true)) := by
  have hval : lisp_validate 2 ['a', ' ', 'a'] [x, y] = Except.ok true := by
    simp +decide [lisp_validate, lisp_validate_args, vloop, validate_class,
      hcx, hcy, hx, hy]
  have hint : is_int x = true →
      subr_sum [x, y] = Except.ok (intCell (ratTrunc (toNum x + toNum y))) ∧
      subr_sub [x, y] = Except.ok (intCell (ratTrunc (toNum x - toNum y))) ∧
      subr_prod [x, y] = Except.ok (intCell (ratTrunc (toNum x * toNum y))) := by
    intro hxi
    have hfx := int_not_floating x hxi
    by_cases hfy : is_floating y = true
    · refine ⟨?_, ?_, ?_⟩ <;>
        simp [subr_sum, subr_sub, subr_prod, withValidation, hval, hxi, hy,
          hfy, toNum, hfx]
    · simp only [Bool.not_eq_true] at hfy
      refine ⟨?_, ?_, ?_⟩ <;>
        simp [subr_sum, subr_sub, subr_prod, withValidation, hval, hxi, hy,
          hfy, toNum, hfx, ratTrunc_intCast_add, ratTrunc_intCast_sub,
          ratTrunc_intCast_mul]
  have hflt : is_floating x = true →
      subr_sum [x, y] = Except.ok (fltCell (toNum x + toNum y)) ∧
      subr_sub [x, y] = Except.ok (fltCell (toNum x - toNum y)) ∧
      subr_prod [x, y] = Except.ok (fltCell (toNum x * toNum y)) := by
    intro hxf
    have hix := floating_not_int x hxf
    by_cases hfy : is_floating y = true
    · refine ⟨?_, ?_, ?_⟩ <;>
        simp [subr_sum, subr_sub, subr_prod, withValidation, hval, hix, hy,
          hxf, hfy, toNum]
    · simp only [Bool.not_eq_true] at hfy
      refine ⟨?_, ?_, ?_⟩ <;>
        simp [subr_sum, subr_sub, subr_prod, withValidation, hval, hix, hy,
          hxf, hfy, toNum]
  refine ⟨hint, hflt, ?_⟩
  intro r hr
  rcases arith_int_or_floating x hx with hxi | hxf
  · have h3 := hint hxi
    have hfx := int_not_floating x hxi
    have hrr : r = intCell (ratTrunc (toNum x + toNum y)) ∨
        r = intCell (ratTrunc (toNum x - toNum y)) ∨
        r = intCell (ratTrunc (toNum x * toNum y)) := by
      rcases hr with h | h | h
      · left; rw [h3.1] at h; exact ((Except.ok.injEq _ _).mp h).symm
      · right; left; rw [h3.2.1] at h
        exact ((Except.ok.injEq _ _).mp h).symm
      · right; right; rw [h3.2.2] at h
        exact ((Except.ok.injEq _ _).mp h).symm
    rw [hfx]
    rcases hrr with h | h | h <;> simp [h, is_floating, intCell]
  · have h3 := hflt hxf
    have hrr : r = fltCell (toNum x + toNum y) ∨
        r = fltCell (toNum x - toNum y) ∨
        r = fltCell (toNum x * toNum y) := by
      rcases hr with h | h | h
      · left; rw [h3.1] at h; exact ((Except.ok.injEq _ _).mp h).symm
      · right; left; rw [h3.2.1] at h
        exact ((Except.ok.injEq _ _).mp h).symm
      · right; right; rw [h3.2.2] at h
        exact ((Except.ok.injEq _ _).mp h).symm
    rw [hxf]
    rcases hrr with h | h | h <;> simp [h, is_floating, fltCell]

/-- C9 witness: (+ 1 1.5) gives the integer 2 (truncation of 2.5), while
(+ 1.5 1) gives the float 2.5. -/
theorem C9_mixed_arith_witness :
    subr_sum [intCell 1, fltCell (3/2)] = Except.ok (intCell 2) ∧
    subr_sum [fltCell (3/2), intCell 1] = Except.ok (fltCell (5/2)) := by
  constructor
  · have e := ((C9_mixed_arith (intCell 1) (fltCell (3/2)) rfl rfl rfl rfl).1 rfl).1
    rw [e]
    have hv : ratTrunc (toNum (intCell 1) + toNum (fltCell (3/2))) = 2 := by
      norm_num [toNum, is_floating, intCell, fltCell, floatval, intval, ratTrunc]
      decide
    rw [hv]
  · have e := ((C9_mixed_arith (fltCell (3/2)) (intCell 1) rfl rfl rfl rfl).2.1 rfl).1
    rw [e]
    have hv : toNum (fltCell (3/2)) + toNum (intCell 1) = 5/2 := by
      norm_num [toNum, is_floating, intCell, fltCell, floatval, intval]
    rw [hv]

theorem parseBody_escByte (b : Nat) (rest : List Nat)
    (hb : 1 ≤ b) (hb2 : b ≤ 255) :
    parseBody (escByte b ++ rest) = addHead b (parseBody rest) := by
  by_cases h92 : b = 92
  · subst h92
    rw [show escByte 92 ++ rest = 92 :: 92 :: rest from rfl, parseBody.eq_def]
    simp
  by_cases h10 : b = 10
  · subst h10
    rw [show escByte 10 ++ rest = 92 :: 110 :: rest from rfl, parseBody.eq_def]
    simp
  by_cases h9 : b = 9
  · subst h9
    rw [show escByte 9 ++ rest = 92 :: 116 :: rest from rfl, parseBody.eq_def]
    simp
  by_cases h13 : b = 13
  · subst h13
    rw [show escByte 13 ++ rest = 92 :: 114 :: rest from rfl, parseBody.eq_def]
    simp
  by_cases h34 : b = 34
  · subst h34
    rw [show escByte 34 ++ rest = 92 :: 34 :: rest from rfl, parseBody.eq_def]
    simp
  by_cases hpr : isPrintB b = true
  · have he : escByte b = [b] := by
      simp [escByte, h92, h10, h9, h13, h34, hpr]
    rw [he, show ([b] : List Nat) ++ rest = b :: rest from rfl,
      parseBody.eq_def]
    simp [h92, h34]
  · have hpf : isPrintB b = false := by simpa using hpr
    have he : escByte b = 92 :: oct3 b := by
      simp [escByte, h92, h10, h9, h13, h34, hpf]
    have he2 : escByte b ++ rest =
        92 :: (48 + b / 64) :: (48 + b / 8 % 8) :: (48 + b % 8) :: rest := by
      rw [he]; simp [oct3]
    rw [he2, parseBody.eq_def]
    have c1 : ¬(48 + b / 64 = 92) := by omega
    have c2 : ¬(48 + b / 64 = 34) := by omega
    have c3 : ¬(48 + b / 64 = 110) := by omega
    have c4 : ¬(48 + b / 64 = 116) := by omega
    have c5 : ¬(48 + b / 64 = 114) := by omega
    have o1 : isOctDigit (48 + b / 64) = true := by
      simp only [isOctDigit, Bool.and_eq_true, decide_eq_true_eq]; omega
    have o2 : isOctDigit (48 + b / 8 % 8) = true := by
      simp only [isOctDigit, Bool.and_eq_true, decide_eq_true_eq]; omega
    have o3 : isOctDigit (48 + b % 8) = true := by
      simp only [isOctDigit, Bool.and_eq_true, decide_eq_true_eq]; omega
    have hval : b / 64 * 64 + b / 8 % 8 * 8 + b % 8 = b := by omega
    simp [c1, c2, c3, c4, c5, o1, o2, o3, hval]

/-- C8: printing a string cell writes it wrapped in double quotes using
exactly the inverse of the reader's escape rules: feeding the printed bytes
back through the reader's string-literal scan (modelled from the spec)
recovers the original byte string exactly, with no input left over. -/
theorem C8_print_read_roundtrip (s : List Nat)
    (h : ∀ b ∈ s, 1 ≤ b ∧ b ≤ 255) :
    readStringLit (print_escaped_string s) = some (s, []) := by
  have key : ∀ (t : List Nat), (∀ b ∈ t, 1 ≤ b ∧ b ≤ 255) →
      parseBody (t.flatMap escByte ++ [34]) = some (t, []) := by
    intro t
    induction t with
    | nil => intro _; rfl
    | cons b tl ih =>
      intro ht
      have hb := ht b (by simp)
      have htl : ∀ c ∈ tl, 1 ≤ c ∧ c ≤ 255 := fun c hc => ht c (by simp [hc])
      rw [List.flatMap_cons, List.append_assoc,
        parseBody_escByte b _ hb.1 hb.2, ih htl]
      rfl
  rw [print_escaped_string]
  show parseBody (s.flatMap escByte ++ [34]) = some (s, [])
  exact key s h

/-- C8 witness: the round trip applied to the bytes "a", newline, 0xC8
(printed as "a\n\310"). -/
theorem C8_print_read_witness :
    readStringLit (print_escaped_string [97, 10, 200]) =
      some ([97, 10, 200], []) :=
  C8_print_read_roundtrip _ (by decide)

theorem vloop_fmtOfTokens (ts : List Char) :
    ∀ (args : List cell),
      (∀ c ∈ ts, (validate_class c).isSome = true) →
      ((vloop (fmtOfTokens ts) args true = VOut.ok ∨
        vloop (fmtOfTokens ts) args true = VOut.failed) ∧
       (args.length = ts.length →
         (vloop (fmtOfTokens ts) args true = VOut.ok ↔
           List.Forall₂ (fun t x => tokenOk t x = true ∧ x.close = false)
             ts args))) := by
  induction ts with
  | nil =>
    intro args _
    refine ⟨Or.inl rfl, ?_⟩
    intro hlen
    have hargs : args = [] := List.length_eq_zero.mp hlen
    subst hargs
    simp [fmtOfTokens, vloop]
  | cons t ts ih =>
    cases ts with
    | nil =>
      intro args hv
      obtain ⟨p, hp⟩ := Option.isSome_iff_exists.mp (hv t (by simp))
      have ht : ¬(t = ' ') := by
        intro h; rw [h] at hp; simp [validate_class] at hp
      cases args with
      | nil =>
        refine ⟨Or.inr rfl, ?_⟩
        intro hlen; simp at hlen
      | cons x xs =>
        by_cases hc : x.close = true
        · have hred : vloop (fmtOfTokens [t]) (x :: xs) true = VOut.failed := by
            simp [fmtOfTokens, vloop, hc]
          refine ⟨Or.inr hred, ?_⟩
          intro hlen
          rw [hred]
          refine iff_of_false (by simp) ?_
          intro hf
          simp [List.forall₂_cons] at hf
          exact absurd hf.1.2 (by simp [hc])
        · have hc' : x.close = false := by simpa using hc
          have hred : vloop (fmtOfTokens [t]) (x :: xs) true =
              (if p x = true then VOut.ok else VOut.failed) := by
            simp [fmtOfTokens, vloop, hc', ht, hp]
          constructor
          · rw [hred]; split_ifs
            · exact Or.inl rfl
            · exact Or.inr rfl
          · intro hlen
            have hxs : xs = [] := by
              have : xs.length = 0 := by simpa using hlen
              exact List.length_eq_zero.mp this
            subst hxs
            rw [hred]
            by_cases hpx : p x = true
            · simp [hpx, List.forall₂_cons, tokenOk, hp, hc']
            · simp [hpx, List.forall₂_cons, tokenOk, hp, hc']
    | cons t2 ts2 =>
      intro args hv
      obtain ⟨p, hp⟩ := Option.isSome_iff_exists.mp (hv t (by simp))
      have ht : ¬(t = ' ') := by
        intro h; rw [h] at hp; simp [validate_class] at hp
      have hfmt : fmtOfTokens (t :: t2 :: ts2) =
          t :: ' ' :: fmtOfTokens (t2 :: ts2) := rfl
      cases args with
      | nil =>
        refine ⟨Or.inr rfl, ?_⟩
        intro hlen; simp at hlen
      | cons x xs =>
        by_cases hc : x.close = true
        · have hred : vloop (fmtOfTokens (t :: t2 :: ts2)) (x :: xs) true =
              VOut.failed := by
            simp [hfmt, vloop, hc]
          refine ⟨Or.inr hred, ?_⟩
          intro hlen
          rw [hred]
          refine iff_of_false (by simp) ?_
          intro hf
          simp [List.forall₂_cons] at hf
          exact absurd hf.1.2 (by simp [hc])
        · have hc' : x.close = false := by simpa using hc
          have hstep1 : vloop (fmtOfTokens (t :: t2 :: ts2)) (x :: xs) true =
              vloop (' ' :: fmtOfTokens (t2 :: ts2)) xs (p x) := by
            rw [hfmt, vloop.eq_def]
            simp [hc', ht, hp]
          cases xs with
          | nil =>
            have hred : vloop (' ' :: fmtOfTokens (t2 :: ts2)) ([] : List cell)
                (p x) = VOut.failed := rfl
            refine ⟨Or.inr (by rw [hstep1, hred]), ?_⟩
            intro hlen; simp at hlen
          | cons y ys =>
            by_cases hpx : p x = true
            · by_cases hyc : y.close = true
              · have hred : vloop (' ' :: fmtOfTokens (t2 :: ts2)) (y :: ys)
                    (p x) = VOut.failed := by
                  simp [vloop, hpx, hyc]
                refine ⟨Or.inr (by rw [hstep1, hred]), ?_⟩
                intro hlen
                rw [hstep1, hred]
                refine iff_of_false (by simp) ?_
                intro hf
                simp [List.forall₂_cons] at hf
                exact absurd hf.2.1.2 (by simp [hyc])
              · have hyc' : y.close = false := by simpa using hyc
                have hstep2 : vloop (' ' :: fmtOfTokens (t2 :: ts2)) (y :: ys)
                    (p x) = vloop (fmtOfTokens (t2 :: ts2)) (y :: ys) true := by
                  rw [vloop.eq_def]
                  simp [hpx, hyc']
                have ihh := ih (y :: ys) (fun c hcm => hv c (by simp [hcm]))
                constructor
                · rw [hstep1, hstep2]; exact ihh.1
                · intro hlen
                  have hlen2 : (y :: ys).length = (t2 :: ts2).length := by
                    simp at hlen ⊢; omega
                  rw [hstep1, hstep2, ihh.2 hlen2]
                  simp [List.forall₂_cons, tokenOk, hp, hpx, hc']
            · have hpx' : p x = false := by simpa using hpx
              have hred : vloop (' ' :: fmtOfTokens (t2 :: ts2)) (y :: ys)
                  (p x) = VOut.failed := by
                simp [vloop, hpx']
              refine ⟨Or.inr (by rw [hstep1, hred]), ?_⟩
              intro hlen
              rw [hstep1, hred]
              refine iff_of_false (by simp) ?_
              intro hf
              simp [List.forall₂_cons, tokenOk, hp] at hf
              exact absurd hf.1.1 (by simp [hpx'])

/-- C1 amended: for a validation string of class tokens separated by single
spaces, with the declared argument count equal to the token count (the
contract valid.c states for its callers), validation succeeds if and only if
the argument list has exactly that length and each argument both satisfies
the class named by its positional token *and* has its closed flag clear
(List.Forall₂ forces the length equality); any other outcome is the
validation-error escape raised before the host function is entered. -/
theorem C1_validation_amended (ts : List Char) (args : List cell)
    (hts : ∀ c ∈ ts, (validate_class c).isSome = true) :
    (lisp_validate_args ts.length (fmtOfTokens ts) args true = Except.ok true ↔
      List.Forall₂ (fun t x => tokenOk t x = true ∧ x.close = false) ts args) ∧
    (lisp_validate_args ts.length (fmtOfTokens ts) args true = Except.ok true ∨
     lisp_validate_args ts.length (fmtOfTokens ts) args true =
       Except.error Err.validation) := by
  have hv := vloop_fmtOfTokens ts args hts
  by_cases hlen : args.length = ts.length
  · have hiff := hv.2 hlen
    unfold lisp_validate_args
    rw [if_neg (by omega)]
    rcases hv.1 with hok | hfail
    · rw [hok]
      exact ⟨iff_of_true rfl (hiff.mp hok), Or.inl rfl⟩
    · rw [hfail]
      refine ⟨iff_of_false (by simp) ?_, Or.inr rfl⟩
      intro hf
      have := hiff.mpr hf
      rw [hfail] at this
      exact VOut.noConfusion this
  · unfold lisp_validate_args
    rw [if_pos (by omega)]
    refine ⟨iff_of_false (by simp) ?_, Or.inr rfl⟩
    intro hf
    exact hlen (List.Forall₂.length_eq hf).symm

/-- C1 counterexample: a closed input port presented to the one-token
validation string "P" has the right argument count and satisfies the 'P'
class (it is an I/O port cell), yet validation raises the error - the claim's
"if and only if" fails on any closed argument. -/
theorem C1_validation_counterexample :
    lisp_validate_args 1 (fmtOfTokens ['P'])
        [(⟨true, 0, celld.Port true []⟩ : cell)] true =
      Except.error Err.validation ∧
    tokenOk 'P' (⟨true, 0, celld.Port true []⟩ : cell) = true ∧
    ([(⟨true, 0, celld.Port true []⟩ : cell)]).length = 1 :=
  ⟨rfl, rfl, rfl⟩

/-- C1 witness: the amended theorem applied to the token list ['d', 'Z'] and
the argument list [3, "a"] (both classes hold, nothing closed). -/
theorem C1_validation_witness :
    lisp_validate_args 2 (fmtOfTokens ['d', 'Z'])
        [intCell 3, strCell [97]] true = Except.ok true := by
  refine (C1_validation_amended ['d', 'Z'] [intCell 3, strCell [97]]
    (by decide)).1.mpr ?_
  refine List.Forall₂.cons ⟨rfl, rfl⟩ (List.Forall₂.cons ⟨rfl, rfl⟩ List.Forall₂.nil)
